import Mathlib

/-!
A shallow embedding of the BananaLens photo-editing web app
(src/App.tsx, src/components/BeforeAfter (concatenated into App.tsx),
src/services/geminiService.ts, src/types.ts), with theorems settling the
frozen claims about its specification.

Numbers: the source manipulates JS numbers that, in every code path the
claims touch, hold integral filter values; we embed them as `Int`.  The
compare-slider arithmetic divides pixel offsets, so it is embedded over `ℚ`.
Strings are embedded as Lean `String`/`List Char`.
-/

namespace BananaLens

/-- `FilterSettings` from src/types.ts: a flat record of numeric adjustment
parameters.  All eight fields are present on every record. -/
structure FilterSettings where
  brightness : Int
  contrast   : Int
  saturation : Int
  sepia      : Int
  grayscale  : Int
  hueRotate  : Int
  blur       : Int
  warmth     : Int
deriving DecidableEq, Repr

/-- `defaultSettings` from src/App.tsx lines 8-17. -/
def defaultSettings : FilterSettings :=
  { brightness := 100, contrast := 100, saturation := 100,
    sepia := 0, grayscale := 0, hueRotate := 0, blur := 0, warmth := 0 }

/-- The `suggestedSettings` object of an `AnalysisResult` as constrained by the
response schema in src/services/geminiService.ts lines 86-104: the schema has
exactly the seven properties below (no `warmth`), of which only brightness,
contrast and saturation are required, so every field may be absent. -/
structure SuggestedSettings where
  brightness : Option Int
  contrast   : Option Int
  saturation : Option Int
  sepia      : Option Int
  grayscale  : Option Int
  hueRotate  : Option Int
  blur       : Option Int
deriving DecidableEq, Repr

/-- `AnalysisResult` from src/types.ts, with `suggestedSettings` partial as the
AI schema allows. -/
structure AnalysisResult where
  reasoning : String
  suggestedSettings : SuggestedSettings
deriving DecidableEq, Repr

/-- The JS object spread `{...prev, ...result.suggestedSettings}` of
src/App.tsx line 79: every key present on the suggestion overrides the prior
record, every absent key keeps the prior value; `warmth` never occurs on the
suggestion object, so it is always kept. -/
def mergeSettings (prev : FilterSettings) (sug : SuggestedSettings) : FilterSettings :=
  { brightness := match sug.brightness with | some v => v | none => prev.brightness
    contrast   := match sug.contrast   with | some v => v | none => prev.contrast
    saturation := match sug.saturation with | some v => v | none => prev.saturation
    sepia      := match sug.sepia      with | some v => v | none => prev.sepia
    grayscale  := match sug.grayscale  with | some v => v | none => prev.grayscale
    hueRotate  := match sug.hueRotate  with | some v => v | none => prev.hueRotate
    blur       := match sug.blur       with | some v => v | none => prev.blur
    warmth     := prev.warmth }

/-- The filter string built by `getFilterString` in the BeforeAfter component
(src/App.tsx lines 509-511). -/
def getFilterString (s : FilterSettings) : String :=
  "brightness(" ++ toString s.brightness ++ "%) contrast(" ++ toString s.contrast ++
  "%) saturate(" ++ toString s.saturation ++ "%) sepia(" ++ toString s.sepia ++
  "%) grayscale(" ++ toString s.grayscale ++ "%) hue-rotate(" ++ toString s.hueRotate ++
  "deg) blur(" ++ toString s.blur ++ "px)"

/-- The canvas context filter string built inline by `processAndDownloadImage`
(src/App.tsx line 114). -/
def exportFilterString (s : FilterSettings) : String :=
  "brightness(" ++ toString s.brightness ++ "%) contrast(" ++ toString s.contrast ++
  "%) saturate(" ++ toString s.saturation ++ "%) sepia(" ++ toString s.sepia ++
  "%) grayscale(" ++ toString s.grayscale ++ "%) hue-rotate(" ++ toString s.hueRotate ++
  "deg) blur(" ++ toString s.blur ++ "px)"

/-- `toggleExportSelection` from src/App.tsx lines 185-193: copy the selection
set, then delete the id if present, insert it otherwise. -/
def toggleExportSelection (sel : Finset String) (id : String) : Finset String :=
  if id ∈ sel then sel.erase id else insert id sel

/-- The editor state handled by `handleCastSpell` (src/App.tsx lines 24-33). -/
structure EditorState where
  currentImage : Option String
  currentSettings : FilterSettings
  isProcessing : Bool
  aiReasoning : String
  showCompare : Bool
deriving DecidableEq, Repr

/-- `analyzeImageAndGetSettings` (src/services/geminiService.ts lines 80-116),
abstracted over the live call outcome and the JSON parser: a thrown network
error is logged and rethrown by the catch block; a present response text is
parsed (a parse failure throws and is rethrown); an absent response text
throws `No response text`. -/
def analyzeImageAndGetSettings (parse : String → Option AnalysisResult)
    (call : Except String (Option String)) : Except String AnalysisResult :=
  match call with
  | .error e => .error e
  | .ok none => .error "No response text"
  | .ok (some t) =>
      match parse t with
      | some r => .ok r
      | none => .error "JSON parse failure"

/-- `handleCastSpell` (src/App.tsx lines 67-88), as the net state transition of
one invocation: an early return when no image is loaded; on success the
suggestion is merged into the current settings, the reasoning text is shown and
compare mode is closed; on any caught error only the reasoning text is set to
the fizzle message.  `finally` clears `isProcessing` on both paths.  The body
awaits `analyzeImageAndGetSettings` exactly once, so the transition consumes a
single call outcome. -/
def handleCastSpell (st : EditorState) (parse : String → Option AnalysisResult)
    (call : Except String (Option String)) : EditorState :=
  match st.currentImage with
  | none => st
  | some _ =>
      match analyzeImageAndGetSettings parse call with
      | .ok result =>
          { st with
            currentSettings := mergeSettings st.currentSettings result.suggestedSettings,
            aiReasoning := result.reasoning,
            showCompare := false,
            isProcessing := false }
      | .error _ =>
          { st with
            aiReasoning := "Oops! The spell fizzled. Please try again.",
            isProcessing := false }

/-- The pointer x-offset clamp of `handleMouseMove`/`handleTouchMove`
(src/App.tsx lines 519-531): `Math.max(0, Math.min(e.clientX - rect.left,
rect.width))`. -/
def clampedX (clientX left width : ℚ) : ℚ :=
  max 0 (min (clientX - left) width)

/-- `handleMouseMove` (src/App.tsx lines 519-524; `handleTouchMove` at lines
526-531 is the same computation on `touches[0].clientX`): when no drag is
active, compare mode is off, or the container ref is absent, the slider
position is left unchanged; otherwise the clamped x-offset is converted to a
percentage of the container width. -/
def handleMouseMove (isResizing containerPresent isCompareActive : Bool)
    (pos clientX left width : ℚ) : ℚ :=
  if isResizing && containerPresent && isCompareActive then
    clampedX clientX left width / width * 100
  else pos

/-- The character class `\s` of the JS regex in src/App.tsx line 118
(ECMAScript WhiteSpace ∪ LineTerminator), by code point. -/
def isJsWhitespace (c : Char) : Bool :=
  let n := c.toNat
  n = 9 || n = 10 || n = 11 || n = 12 || n = 13 || n = 32 ||
  n = 0xA0 || n = 0x1680 || (0x2000 ≤ n && n ≤ 0x200A) ||
  n = 0x2028 || n = 0x2029 || n = 0x202F || n = 0x205F || n = 0x3000 || n = 0xFEFF

/-- `name.replace(/\s+/g, '-')` from src/App.tsx line 118: each maximal run of
whitespace characters is replaced by a single `-`.  The flag records whether
the previous character belonged to a run already replaced. -/
def replaceWsRuns : List Char → Bool → List Char
  | [], _ => []
  | c :: rest, inRun =>
      if isJsWhitespace c then
        (if inRun then [] else ['-']) ++ replaceWsRuns rest true
      else
        c :: replaceWsRuns rest false

/-- `item.name.replace(/\s+/g, '-').toLowerCase()` from src/App.tsx line 118.
`Char.toLower` is the basic-latin lowercase map, which agrees with JS
`toLowerCase` on ASCII; mappings of non-ASCII letters are outside this
embedding. -/
def slugify (name : String) : String :=
  String.mk ((replaceWsRuns name.data false).map Char.toLower)

/-- The download filename `bananalens-${...}.png` from src/App.tsx line 118. -/
def downloadFileName (name : String) : String :=
  "bananalens-" ++ slugify name ++ ".png"

/-- `PhotoItem` from src/types.ts. -/
structure PhotoItem where
  id : String
  originalUrl : String
  name : String
  timestamp : Nat
  settings : FilterSettings
  previewUrl : Option String := none
deriving DecidableEq, Repr

/-- One file handed to `handleBatchImport`: its `name` and `type` attributes,
and the outcome of `fileToGenerativePart` on it (`some base64` when the read
succeeds, `none` when the `FileReader` rejects and the catch block runs). -/
structure ImportFile where
  name : String
  type : String
  read : Option String
deriving DecidableEq, Repr

/-- `file.name.split('.')[0] || Photo ...` from src/App.tsx line 171:
JS `split` always yields a non-empty array, and its first element is falsy
exactly when it is the empty string, in which case the fallback name is
used. -/
def importedName (fileName : String) (collLen i : Nat) : String :=
  let base := (fileName.splitOn ".").headD ""
  if base = "" then "Photo " ++ toString (collLen + i + 1) else base

/-- The `for` loop of `handleBatchImport` (src/App.tsx lines 164-178):
`i` is the loop index, `idOf i` the id  generated from `Date.now()` and
`Math.random()` at iteration `i`, `now` the timestamp, `collLen` the
collection length captured by the callback.  A file whose read throws is
caught, logged and skipped; the loop continues with the remaining files. -/
def handleBatchImportLoop (idOf : Nat → String) (now collLen : Nat) :
    List ImportFile → Nat → List PhotoItem
  | [], _ => []
  | f :: rest, i =>
      match f.read with
      | some b64 =>
          { id := idOf i,
            originalUrl := "data:" ++ f.type ++ ";base64," ++ b64,
            name := importedName f.name collLen i,
            timestamp := now,
            settings := defaultSettings } :: handleBatchImportLoop idOf now collLen rest (i + 1)
      | none => handleBatchImportLoop idOf now collLen rest (i + 1)

/-- `handleBatchImport` (src/App.tsx lines 161-183): the successfully read
files become new items, prepended as one block before the previous collection
(`[...newItems, ...prev]`). -/
def handleBatchImport (idOf : Nat → String) (now collLen : Nat)
    (files : List ImportFile) (prev : List PhotoItem) : List PhotoItem :=
  handleBatchImportLoop idOf now collLen files 0 ++ prev

/-- An image element that finished loading: its natural dimensions, which size
the export canvas. -/
structure LoadedImage where
  width : Nat
  height : Nat
deriving DecidableEq, Repr

/-- One triggered browser download: the anchor's `download` attribute and the
canvas contents (dimensions plus the context filter the image was drawn
with). -/
structure Download where
  fileName : String
  width : Nat
  height : Nat
  filter : String
deriving DecidableEq, Repr

/-- `processAndDownloadImage` (src/App.tsx lines 103-128), by its observable
effect: on `img.onload` the canvas is sized to the image, the filter string is
applied and one download is triggered; on `img.onerror` the promise resolves
with no download ("Fail safely").  Either way the promise resolves, so the
result is the list of downloads produced (one or none). -/
def processAndDownloadImage (item : PhotoItem) (load : Option LoadedImage) :
    List Download :=
  match load with
  | none => []
  | some img =>
      [{ fileName := downloadFileName item.name,
         width := img.width, height := img.height,
         filter := exportFilterString item.settings }]

/-- The `for...of` loop of `handleBatchExport` (src/App.tsx lines 149-154):
each selected item is awaited in turn (`loads` gives each item's image-load
outcome), its downloads are produced in order, and `processed` is incremented
once per item whether or not a download was produced. -/
def handleBatchExportLoop (loads : PhotoItem → Option LoadedImage) :
    List PhotoItem → List Download × Nat
  | [] => ([], 0)
  | it :: rest =>
      let tail := handleBatchExportLoop loads rest
      (processAndDownloadImage it (loads it) ++ tail.1, tail.2 + 1)

/-- The collection and export-selection state seen by `handleBatchExport`. -/
structure ExportState where
  collection : List PhotoItem
  exportSelection : Finset String
deriving DecidableEq

/-- `handleBatchExport` (src/App.tsx lines 142-158): early return on an empty
selection; otherwise the selected items are filtered out of the collection,
exported sequentially, the selection is cleared and the processed count is
reported.  The result is (new state, downloads, reported count). -/
def handleBatchExport (st : ExportState)
    (loads : PhotoItem → Option LoadedImage) : ExportState × List Download × Nat :=
  if st.exportSelection = ∅ then (st, [], 0)
  else
    let items := st.collection.filter (fun it => decide (it.id ∈ st.exportSelection))
    let r := handleBatchExportLoop loads items
    ({ st with exportSelection := ∅ }, r.1, r.2)

/-- A saved `PhotoItem` whose `settings` field is a JS object reference:
`settingsRef` indexes into the heap of settings records. -/
structure StoredItem where
  id : String
  originalUrl : String
  name : String
  timestamp : Nat
  settingsRef : Nat
deriving DecidableEq, Repr

/-- The application state with JS object identity of settings records made
explicit: `settingsHeap` holds every allocated `FilterSettings` object, and the
collection and the editor refer to them by index. -/
structure AppHeapState where
  settingsHeap : List FilterSettings
  collection : List StoredItem
  currentImage : Option String
  currentSettingsRef : Nat
  aiReasoning : String

/-- The collection card's Edit button (src/App.tsx lines 366-376):
`setCurrentImage(item.originalUrl); setCurrentSettings(item.settings)` — the
editor's settings now alias the stored record (same reference, no copy). -/
def loadItemToEditor (st : AppHeapState) (item : StoredItem) : AppHeapState :=
  { st with
    currentImage := some item.originalUrl,
    currentSettingsRef := item.settingsRef }

/-- `handleCastSpell` over the heap model: the merge
`{...prev, ...result.suggestedSettings}` allocates a fresh object and points
the editor at it; no write ever goes through `currentSettingsRef` into the
heap. -/
def castSpellOnHeap (st : AppHeapState) (parse : String → Option AnalysisResult)
    (call : Except String (Option String)) : AppHeapState :=
  match st.currentImage with
  | none => st
  | some _ =>
      match analyzeImageAndGetSettings parse call with
      | .ok result =>
          { st with
            settingsHeap := st.settingsHeap ++
              [mergeSettings (st.settingsHeap.getD st.currentSettingsRef defaultSettings)
                result.suggestedSettings],
            currentSettingsRef := st.settingsHeap.length,
            aiReasoning := result.reasoning }
      | .error _ =>
          { st with aiReasoning := "Oops! The spell fizzled. Please try again." }

end BananaLens

namespace BananaLens

/-- C1: merging `suggestedSettings` into the current settings takes the
suggested value for every field present on the suggestion, and keeps the prior
value for every absent field; `warmth`, which the AI schema never returns, is
always kept. -/
theorem merge_partial_fields (prev : FilterSettings) (sug : SuggestedSettings) :
    mergeSettings prev sug =
      { brightness := sug.brightness.getD prev.brightness,
        contrast   := sug.contrast.getD prev.contrast,
        saturation := sug.saturation.getD prev.saturation,
        sepia      := sug.sepia.getD prev.sepia,
        grayscale  := sug.grayscale.getD prev.grayscale,
        hueRotate  := sug.hueRotate.getD prev.hueRotate,
        blur       := sug.blur.getD prev.blur,
        warmth     := prev.warmth } := by
  simp only [mergeSettings]
  cases sug.brightness <;> cases sug.contrast <;> cases sug.saturation <;>
    cases sug.sepia <;> cases sug.grayscale <;> cases sug.hueRotate <;>
    cases sug.blur <;> rfl

/-- C2: a network error and an absent response text are both thrown by
`analyzeImageAndGetSettings` (so is a parse failure), and whenever the call
comes back as an error, `handleCastSpell` catches it, sets the reasoning text
to the fizzle message, and leaves the current settings exactly as they were;
the transition consumes a single call outcome, so no retry happens. -/
theorem cast_spell_failure_keeps_settings :
    (∀ parse, analyzeImageAndGetSettings parse (.ok none) = .error "No response text") ∧
    (∀ parse e, analyzeImageAndGetSettings parse (.error e) = .error e) ∧
    (∀ parse t, parse t = none →
      analyzeImageAndGetSettings parse (.ok (some t)) = .error "JSON parse failure") ∧
    (∀ (st : EditorState) (img : String) parse call e,
      st.currentImage = some img →
      analyzeImageAndGetSettings parse call = .error e →
      (handleCastSpell st parse call).currentSettings = st.currentSettings ∧
      (handleCastSpell st parse call).aiReasoning =
        "Oops! The spell fizzled. Please try again.") := by
  refine ⟨fun parse => rfl, fun parse e => rfl, ?_, ?_⟩
  · intro parse t hp
    simp only [analyzeImageAndGetSettings, hp]
  · intro st img parse call e himg herr
    have h : handleCastSpell st parse call =
        { st with aiReasoning := "Oops! The spell fizzled. Please try again.",
                  isProcessing := false } := by
      simp only [handleCastSpell, himg, herr]
    rw [h]
    exact ⟨rfl, rfl⟩

/-- Witness for C2 at a concrete state and a concrete failing call. -/
theorem cast_spell_failure_keeps_settings_witness :
    (handleCastSpell
        { currentImage := some "data:image/png;base64,AA",
          currentSettings := defaultSettings, isProcessing := true,
          aiReasoning := "Nano Banana is analyzing histogram, exposure, and composition...",
          showCompare := true }
        (fun _ => none) (.error "network down")).currentSettings = defaultSettings ∧
    (handleCastSpell
        { currentImage := some "data:image/png;base64,AA",
          currentSettings := defaultSettings, isProcessing := true,
          aiReasoning := "Nano Banana is analyzing histogram, exposure, and composition...",
          showCompare := true }
        (fun _ => none) (.error "network down")).aiReasoning =
      "Oops! The spell fizzled. Please try again." :=
  cast_spell_failure_keeps_settings.2.2.2
    { currentImage := some "data:image/png;base64,AA",
      currentSettings := defaultSettings, isProcessing := true,
      aiReasoning := "Nano Banana is analyzing histogram, exposure, and composition...",
      showCompare := true }
    "data:image/png;base64,AA" (fun _ => none) (.error "network down")
    "network down" rfl rfl

/-- C3: while a compare-mode drag is active, every processed pointer or touch
move yields a slider position in [0,100], for every pointer coordinate
(including coordinates outside the image bounds), because the x-offset is
clamped to [0, width] before the percentage conversion. -/
theorem slider_position_clamped (clientX left width pos : ℚ)
    (hw : 0 < width) :
    0 ≤ handleMouseMove true true true pos clientX left width ∧
    handleMouseMove true true true pos clientX left width ≤ 100 := by
  have hx0 : (0 : ℚ) ≤ clampedX clientX left width := le_max_left _ _
  have hxw : clampedX clientX left width ≤ width :=
    max_le (le_of_lt hw) (min_le_right _ _)
  have hdiv0 : (0 : ℚ) ≤ clampedX clientX left width / width :=
    div_nonneg hx0 (le_of_lt hw)
  have hdiv1 : clampedX clientX left width / width ≤ 1 :=
    (div_le_one hw).mpr hxw
  constructor
  · simp only [handleMouseMove, Bool.and_self, if_true]
    positivity
  · simp only [handleMouseMove, Bool.and_self, if_true]
    calc clampedX clientX left width / width * 100 ≤ 1 * 100 :=
          mul_le_mul_of_nonneg_right hdiv1 (by norm_num)
      _ = 100 := one_mul 100

/-- Witness for C3 at a pointer far outside a 200-pixel-wide container. -/
theorem slider_position_clamped_witness :
    0 ≤ handleMouseMove true true true 50 10000 10 200 ∧
    handleMouseMove true true true 50 10000 10 200 ≤ 100 :=
  slider_position_clamped 10000 10 200 50 (by norm_num)

/-- C5: the export filter string and the preview filter string are the same
function of the settings, built in the order brightness, contrast, saturate,
sepia, grayscale, hue-rotate, blur; at the settings
{brightness 120, contrast 110, saturation 90, rest 0} it is exactly the
claimed literal (whatever the unused warmth field holds). -/
theorem filter_string_format :
    (∀ s : FilterSettings, exportFilterString s = getFilterString s) ∧
    (∀ w : Int,
      exportFilterString
        { brightness := 120, contrast := 110, saturation := 90, sepia := 0,
          grayscale := 0, hueRotate := 0, blur := 0, warmth := w } =
      "brightness(120%) contrast(110%) saturate(90%) sepia(0%) grayscale(0%) hue-rotate(0deg) blur(0px)") := by
  exact ⟨fun s => rfl, fun w => rfl⟩

/-- C6: toggling an id in the export selection twice returns the selection to
its original state. -/
theorem toggle_toggle_id (sel : Finset String) (id : String) :
    toggleExportSelection (toggleExportSelection sel id) id = sel := by
  by_cases h : id ∈ sel
  · simp only [toggleExportSelection, if_pos h, Finset.not_mem_erase, if_false,
      Finset.insert_erase h, ite_false]
  · simp only [toggleExportSelection, if_neg h, Finset.mem_insert_self, if_pos,
      Finset.erase_insert h]

theorem uint32_le_iff_toNat_le (a b : UInt32) : a ≤ b ↔ a.toNat ≤ b.toNat := by
  rw [UInt32.le_def, BitVec.le_def]
  exact Iff.rfl

theorem char_ofNat_toNat_small : ∀ n : Fin 123, (Char.ofNat n.val).toNat = n.val := by
  decide

theorem char_isUpper_iff (c : Char) :
    c.isUpper = true ↔ 65 ≤ c.toNat ∧ c.toNat ≤ 90 := by
  simp only [Char.isUpper, Bool.and_eq_true, decide_eq_true_eq, ge_iff_le]
  rw [uint32_le_iff_toNat_le, uint32_le_iff_toNat_le]
  exact Iff.rfl

theorem isJsWhitespace_iff (c : Char) :
    isJsWhitespace c = true ↔
      (c.toNat = 9 ∨ c.toNat = 10 ∨ c.toNat = 11 ∨ c.toNat = 12 ∨ c.toNat = 13 ∨
       c.toNat = 32 ∨ c.toNat = 0xA0 ∨ c.toNat = 0x1680 ∨
       (0x2000 ≤ c.toNat ∧ c.toNat ≤ 0x200A) ∨ c.toNat = 0x2028 ∨ c.toNat = 0x2029 ∨
       c.toNat = 0x202F ∨ c.toNat = 0x205F ∨ c.toNat = 0x3000 ∨ c.toNat = 0xFEFF) := by
  simp only [isJsWhitespace, Bool.or_eq_true, Bool.and_eq_true, decide_eq_true_eq, or_assoc]

theorem toLower_toNat_of_upper (c : Char) (h : 65 ≤ c.toNat ∧ c.toNat ≤ 90) :
    (Char.toLower c).toNat = c.toNat + 32 := by
  unfold Char.toLower
  rw [if_pos ⟨h.1, h.2⟩]
  exact char_ofNat_toNat_small ⟨c.toNat + 32, by omega⟩

theorem toLower_eq_self_of_not_upper (c : Char) (h : ¬(65 ≤ c.toNat ∧ c.toNat ≤ 90)) :
    Char.toLower c = c := by
  unfold Char.toLower
  exact if_neg fun hc => h ⟨hc.1, hc.2⟩

theorem toLower_not_upper (c : Char) : (Char.toLower c).isUpper = false := by
  by_cases h : 65 ≤ c.toNat ∧ c.toNat ≤ 90
  · have hv := toLower_toNat_of_upper c h
    cases hb : (Char.toLower c).isUpper
    · rfl
    · exfalso
      have := (char_isUpper_iff _).mp hb
      omega
  · rw [toLower_eq_self_of_not_upper c h]
    cases hb : c.isUpper
    · rfl
    · exact absurd ((char_isUpper_iff _).mp hb) h

theorem toLower_not_jsWhitespace (c : Char) (h : isJsWhitespace c = false) :
    isJsWhitespace (Char.toLower c) = false := by
  by_cases hu : 65 ≤ c.toNat ∧ c.toNat ≤ 90
  · have hv := toLower_toNat_of_upper c hu
    cases hb : isJsWhitespace (Char.toLower c)
    · rfl
    · exfalso
      have := (isJsWhitespace_iff _).mp hb
      omega
  · rw [toLower_eq_self_of_not_upper c hu]
    exact h

theorem replaceWsRuns_not_ws :
    ∀ (l : List Char) (b : Bool), ∀ c ∈ replaceWsRuns l b, isJsWhitespace c = false := by
  intro l
  induction l with
  | nil =>
      intro b c hc
      simp only [replaceWsRuns, List.not_mem_nil] at hc
  | cons a rest ih =>
      intro b c hc
      by_cases ha : isJsWhitespace a
      · rw [replaceWsRuns, if_pos ha] at hc
        cases b with
        | true =>
            rw [if_pos rfl, List.nil_append] at hc
            exact ih true c hc
        | false =>
            rw [if_neg Bool.false_ne_true, List.cons_append, List.nil_append] at hc
            rcases List.mem_cons.mp hc with rfl | hc
            · decide
            · exact ih true c hc
      · rw [replaceWsRuns, if_neg ha] at hc
        rcases List.mem_cons.mp hc with rfl | hc
        · exact Bool.eq_false_iff.mpr ha
        · exact ih false c hc

/-- C8: for every item name, the triggered download is named
`bananalens-<slug>.png` where the slug is the name with whitespace runs
hyphenated and letters lowercased: no character of the slug is whitespace or
an uppercase letter.  Concretely, "My Cool Photo" downloads as
`bananalens-my-cool-photo.png`. -/
theorem download_filename_slug (name : String) :
    downloadFileName name = "bananalens-" ++ slugify name ++ ".png" ∧
    (∀ c ∈ (slugify name).data, isJsWhitespace c = false ∧ c.isUpper = false) ∧
    downloadFileName "My Cool Photo" = "bananalens-my-cool-photo.png" := by
  refine ⟨rfl, ?_, by decide⟩
  intro c hc
  have hdata : (slugify name).data = (replaceWsRuns name.data false).map Char.toLower := rfl
  rw [hdata] at hc
  rcases List.mem_map.mp hc with ⟨a, ha, rfl⟩
  exact ⟨toLower_not_jsWhitespace a (replaceWsRuns_not_ws name.data false a ha),
    toLower_not_upper a⟩

/-- Witness for C8 at the name "My Cool Photo" and the slug character `-`. -/
theorem download_filename_slug_witness :
    '-' ∈ (slugify "My Cool Photo").data ∧
    isJsWhitespace '-' = false ∧ Char.isUpper '-' = false :=
  ⟨by decide, (download_filename_slug "My Cool Photo").2.1 '-' (by decide)⟩

theorem importLoop_length (idOf : Nat → String) (now collLen : Nat) :
    ∀ (files : List ImportFile) (i : Nat),
      (handleBatchImportLoop idOf now collLen files i).length =
        files.countP (fun f => f.read.isSome) := by
  intro files
  induction files with
  | nil => intro i; rfl
  | cons f rest ih =>
      intro i
      cases hf : f.read with
      | some b64 =>
          simp [handleBatchImportLoop, hf, ih, List.countP_cons]
      | none =>
          simp [handleBatchImportLoop, hf, ih, List.countP_cons]

theorem importLoop_urls (idOf : Nat → String) (now collLen : Nat) :
    ∀ (files : List ImportFile) (i : Nat),
      (handleBatchImportLoop idOf now collLen files i).map PhotoItem.originalUrl =
        files.filterMap
          (fun f => f.read.map (fun b64 => "data:" ++ f.type ++ ";base64," ++ b64)) := by
  intro files
  induction files with
  | nil => intro i; rfl
  | cons f rest ih =>
      intro i
      cases hf : f.read with
      | some b64 =>
          simp [handleBatchImportLoop, hf, ih, List.filterMap_cons]
      | none =>
          simp [handleBatchImportLoop, hf, ih, List.filterMap_cons]

/-- C4: a batch import of files of which some succeed and some fail yields
exactly one new item per succeeding file, prepended as one block before the
previous collection, in the same relative order as the succeeding files
appeared in the input; a failing file is skipped and the loop continues with
the remaining files. -/
theorem batch_import_successes (idOf : Nat → String) (now collLen : Nat)
    (files : List ImportFile) (prev : List PhotoItem) :
    (handleBatchImport idOf now collLen files prev =
        handleBatchImportLoop idOf now collLen files 0 ++ prev) ∧
    ((handleBatchImportLoop idOf now collLen files 0).length =
        files.countP (fun f => f.read.isSome)) ∧
    ((handleBatchImportLoop idOf now collLen files 0).map PhotoItem.originalUrl =
        files.filterMap
          (fun f => f.read.map (fun b64 => "data:" ++ f.type ++ ";base64," ++ b64))) ∧
    (∀ (f : ImportFile) (rest : List ImportFile) (i : Nat), f.read = none →
        handleBatchImportLoop idOf now collLen (f :: rest) i =
          handleBatchImportLoop idOf now collLen rest (i + 1)) :=
  ⟨rfl, importLoop_length idOf now collLen files 0, importLoop_urls idOf now collLen files 0,
    fun f rest i hf => by simp only [handleBatchImportLoop, hf]⟩

/-- Witness for C4: a failing first file is skipped and the loop continues
with the remaining files. -/
theorem batch_import_successes_witness :
    handleBatchImportLoop (fun _ => "id") 7 0
        [⟨"broken.png", "image/png", none⟩, ⟨"b.png", "image/png", some "QUJD"⟩] 0 =
      handleBatchImportLoop (fun _ => "id") 7 0 [⟨"b.png", "image/png", some "QUJD"⟩] 1 :=
  (batch_import_successes (fun _ => "id") 7 0 [] []).2.2.2
    ⟨"broken.png", "image/png", none⟩ [⟨"b.png", "image/png", some "QUJD"⟩] 0 rfl

theorem exportLoop_count (loads : PhotoItem → Option LoadedImage) :
    ∀ items : List PhotoItem, (handleBatchExportLoop loads items).2 = items.length := by
  intro items
  induction items with
  | nil => rfl
  | cons it rest ih => simp [handleBatchExportLoop, ih]

theorem exportLoop_downloads (loads : PhotoItem → Option LoadedImage) :
    ∀ items : List PhotoItem,
      (handleBatchExportLoop loads items).1 =
        (items.map (fun it => processAndDownloadImage it (loads it))).flatten := by
  intro items
  induction items with
  | nil => rfl
  | cons it rest ih => simp [handleBatchExportLoop, ih]

/-- C7: batch export processes the selected items strictly sequentially (the
downloads are the concatenation, in item order, of each item's downloads); an
item whose image fails to load resolves with no download, and the loop still
counts it and continues with every remaining item — no failure aborts the
batch. -/
theorem batch_export_skips_failures (loads : PhotoItem → Option LoadedImage) :
    (∀ items : List PhotoItem, (handleBatchExportLoop loads items).2 = items.length) ∧
    (∀ items : List PhotoItem,
      (handleBatchExportLoop loads items).1 =
        (items.map (fun it => processAndDownloadImage it (loads it))).flatten) ∧
    (∀ it : PhotoItem, loads it = none → processAndDownloadImage it (loads it) = []) ∧
    (∀ (it : PhotoItem) (rest : List PhotoItem), loads it = none →
      handleBatchExportLoop loads (it :: rest) =
        ((handleBatchExportLoop loads rest).1, (handleBatchExportLoop loads rest).2 + 1)) := by
  refine ⟨exportLoop_count loads, exportLoop_downloads loads, ?_, ?_⟩
  · intro it hit
    rw [hit]
    rfl
  · intro it rest hit
    simp [handleBatchExportLoop, processAndDownloadImage, hit]

/-- Witness for C7: a failing item yields no download but is still counted,
and the remaining item is still exported. -/
theorem batch_export_skips_failures_witness :
    handleBatchExportLoop (fun _ => none)
        [{ id := "a", originalUrl := "u", name := "a", timestamp := 0,
           settings := defaultSettings },
         { id := "b", originalUrl := "v", name := "b", timestamp := 0,
           settings := defaultSettings }] =
      ((handleBatchExportLoop (fun _ => none)
          [{ id := "b", originalUrl := "v", name := "b", timestamp := 0,
             settings := defaultSettings }]).1,
        (handleBatchExportLoop (fun _ => none)
          [{ id := "b", originalUrl := "v", name := "b", timestamp := 0,
             settings := defaultSettings }]).2 + 1) :=
  (batch_export_skips_failures (fun _ => none)).2.2.2
    { id := "a", originalUrl := "u", name := "a", timestamp := 0,
      settings := defaultSettings }
    [{ id := "b", originalUrl := "v", name := "b", timestamp := 0,
       settings := defaultSettings }] rfl

theorem length_filter_selected :
    ∀ (l : List PhotoItem) (sel : Finset String),
      (l.map PhotoItem.id).Nodup → (∀ x ∈ sel, x ∈ l.map PhotoItem.id) →
      (l.filter (fun it => decide (it.id ∈ sel))).length = sel.card := by
  intro l
  induction l with
  | nil =>
      intro sel _ hsub
      have hsel : sel = ∅ := by
        apply Finset.eq_empty_of_forall_not_mem
        intro x hx
        simpa using hsub x hx
      simp [hsel]
  | cons a rest ih =>
      intro sel hnodup hsub
      rw [List.map_cons, List.nodup_cons] at hnodup
      by_cases ha : a.id ∈ sel
      · rw [List.filter_cons, if_pos (by simpa using ha), List.length_cons]
        have hrest : rest.filter (fun it => decide (it.id ∈ sel)) =
            rest.filter (fun it => decide (it.id ∈ sel.erase a.id)) := by
          apply List.filter_congr
          intro x hx
          have hxne : x.id ≠ a.id := by
            intro he
            exact hnodup.1 (he ▸ List.mem_map_of_mem PhotoItem.id hx)
          simp [Finset.mem_erase, hxne]
        rw [hrest, ih (sel.erase a.id) hnodup.2 ?_]
        · rw [Finset.card_erase_of_mem ha]
          have hpos : 0 < sel.card := Finset.card_pos.mpr ⟨a.id, ha⟩
          omega
        · intro x hx
          rcases Finset.mem_erase.mp hx with ⟨hne, hxs⟩
          rcases List.mem_cons.mp (hsub x hxs) with he | hm
          · exact absurd he hne
          · exact hm
      · rw [List.filter_cons, if_neg (by simpa using ha)]
        apply ih sel hnodup.2
        intro x hx
        rcases List.mem_cons.mp (hsub x hx) with he | hm
        · exact absurd (he ▸ hx) ha
        · exact hm

/-- C10: a batch export over a non-empty selection clears the selection, does
not change the collection, and reports a count equal to the number of selected
items at the start (assuming distinct item ids and a selection drawn from the
collection); the count is the same whatever the image-load outcomes, so failed
items are still counted. -/
theorem batch_export_reset_and_count (st : ExportState)
    (loads loadsOther : PhotoItem → Option LoadedImage)
    (hne : st.exportSelection ≠ ∅)
    (hnodup : (st.collection.map PhotoItem.id).Nodup)
    (hsub : ∀ x ∈ st.exportSelection, x ∈ st.collection.map PhotoItem.id) :
    (handleBatchExport st loads).1.exportSelection = ∅ ∧
    (handleBatchExport st loads).1.collection = st.collection ∧
    (handleBatchExport st loads).2.2 = st.exportSelection.card ∧
    (handleBatchExport st loads).2.2 = (handleBatchExport st loadsOther).2.2 := by
  have hcount : ∀ ld : PhotoItem → Option LoadedImage,
      (handleBatchExport st ld).2.2 = st.exportSelection.card := by
    intro ld
    rw [handleBatchExport, if_neg hne]
    simp only
    rw [exportLoop_count ld]
    exact length_filter_selected st.collection st.exportSelection hnodup hsub
  refine ⟨?_, ?_, hcount loads, (hcount loads).trans (hcount loadsOther).symm⟩
  · rw [handleBatchExport, if_neg hne]
  · rw [handleBatchExport, if_neg hne]

/-- Witness for C10 at a two-item collection with both items selected and
every image load failing. -/
theorem batch_export_reset_and_count_witness :
    (handleBatchExport
        { collection :=
            [{ id := "a", originalUrl := "u", name := "a", timestamp := 0,
               settings := defaultSettings },
             { id := "b", originalUrl := "v", name := "b", timestamp := 0,
               settings := defaultSettings }],
          exportSelection := {"a", "b"} }
        (fun _ => none)).1.exportSelection = ∅ ∧
    (handleBatchExport
        { collection :=
            [{ id := "a", originalUrl := "u", name := "a", timestamp := 0,
               settings := defaultSettings },
             { id := "b", originalUrl := "v", name := "b", timestamp := 0,
               settings := defaultSettings }],
          exportSelection := {"a", "b"} }
        (fun _ => none)).2.2 = ({"a", "b"} : Finset String).card := by
  have h := batch_export_reset_and_count
    { collection :=
        [{ id := "a", originalUrl := "u", name := "a", timestamp := 0,
           settings := defaultSettings },
         { id := "b", originalUrl := "v", name := "b", timestamp := 0,
           settings := defaultSettings }],
      exportSelection := {"a", "b"} }
    (fun _ => none) (fun _ => some { width := 1, height := 1 })
    (by decide) (by decide) (by decide)
  exact ⟨h.1, h.2.2.1⟩

/-- C9: loading a saved item into the editor replaces the working image and
settings but leaves the stored collection entry untouched, and a subsequent
cast-spell (success or failure) still does not mutate any stored settings
record: the merge allocates a fresh record instead of writing through the
shared reference. -/
theorem load_item_then_spell_no_mutation (st : AppHeapState) (item : StoredItem)
    (parse : String → Option AnalysisResult) (call : Except String (Option String))
    (hvalid : ∀ it ∈ st.collection, it.settingsRef < st.settingsHeap.length) :
    (loadItemToEditor st item).collection = st.collection ∧
    (loadItemToEditor st item).settingsHeap = st.settingsHeap ∧
    (castSpellOnHeap (loadItemToEditor st item) parse call).collection = st.collection ∧
    (∀ it ∈ st.collection,
      (castSpellOnHeap (loadItemToEditor st item) parse call).settingsHeap[it.settingsRef]? =
        st.settingsHeap[it.settingsRef]?) := by
  refine ⟨rfl, rfl, ?_, ?_⟩
  · cases hr : analyzeImageAndGetSettings parse call with
    | ok r => simp only [castSpellOnHeap, loadItemToEditor, hr]
    | error e => simp only [castSpellOnHeap, loadItemToEditor, hr]
  · intro it hit
    cases hr : analyzeImageAndGetSettings parse call with
    | ok r =>
        simp only [castSpellOnHeap, loadItemToEditor, hr]
        exact List.getElem?_append_left (hvalid it hit)
    | error e =>
        simp only [castSpellOnHeap, loadItemToEditor, hr]

/-- Witness for C9: one saved item, a successful spell that changes
brightness; the stored settings record is unchanged. -/
theorem load_item_then_spell_no_mutation_witness :
    (castSpellOnHeap
        (loadItemToEditor
          { settingsHeap := [defaultSettings],
            collection := [{ id := "a", originalUrl := "u", name := "Photo 1",
                             timestamp := 0, settingsRef := 0 }],
            currentImage := none, currentSettingsRef := 0, aiReasoning := "" }
          { id := "a", originalUrl := "u", name := "Photo 1",
            timestamp := 0, settingsRef := 0 })
        (fun _ => some
          { reasoning := "brighter",
            suggestedSettings :=
              { brightness := some 120, contrast := none, saturation := none,
                sepia := none, grayscale := none, hueRotate := none, blur := none } })
        (.ok (some "{}"))).settingsHeap[(0 : Nat)]? = some defaultSettings := by
  have h := load_item_then_spell_no_mutation
    { settingsHeap := [defaultSettings],
      collection := [{ id := "a", originalUrl := "u", name := "Photo 1",
                       timestamp := 0, settingsRef := 0 }],
      currentImage := none, currentSettingsRef := 0, aiReasoning := "" }
    { id := "a", originalUrl := "u", name := "Photo 1",
      timestamp := 0, settingsRef := 0 }
    (fun _ => some
      { reasoning := "brighter",
        suggestedSettings :=
          { brightness := some 120, contrast := none, saturation := none,
            sepia := none, grayscale := none, hueRotate := none, blur := none } })
    (.ok (some "{}"))
    (by
      intro it hit
      simp only [List.mem_singleton] at hit
      subst hit
      decide)
  have h2 := h.2.2.2
    { id := "a", originalUrl := "u", name := "Photo 1",
      timestamp := 0, settingsRef := 0 }
    (by simp)
  simpa using h2

end BananaLens
